import Mathlib

/-!
Verification of the `StorageProofIsm` contract
(`src/solidity/contracts/isms/ccip-read/StorageProofIsm.sol`).

The contract is embedded shallowly:

* Machine words (addresses, `uint256`, `bytes32`) are `Nat`; byte strings
  (`bytes`, `string`) are `List Nat` (each element a byte value `< 256`).
* A call that can revert returns `Except Unit α`; `Except.error ()` is a
  revert reaching the caller.
* The EVM builtins `keccak256` and `abi.decode`, and the two library
  functions `StorageProof.getStorageRoot` / `StorageProof.getStorageBytes`
  from `StateProofHelpers.sol` (whose source is not part of this tree),
  together with the virtual oracle read `getHeadStateRoot`, are fields of
  an environment record `Env`.  Theorems about the contract's own code
  quantify over every environment, so they hold whatever those external
  functions do.
* ABI encoding of a `uint` argument tuple is concrete: each component is
  widened to a 32-byte big-endian word and the words are concatenated.
-/

/-- Big-endian byte string of `n`, exactly `w` bytes (most significant first).
Higher bytes of `n` beyond `w` are discarded, as the EVM does. -/
def natToBytesBE : Nat → Nat → List Nat
  | 0, _ => []
  | Nat.succ w, n => natToBytesBE w (n / 256) ++ [n % 256]

/-- Big-endian interpretation of a byte string as a number. -/
def bytesToNatBE (bs : List Nat) : Nat :=
  bs.foldl (fun a b => a * 256 + b) 0

/-- `abi.encode` of a single `uint` value: one 32-byte big-endian word. -/
def abiEncodeWord (n : Nat) : List Nat :=
  natToBytesBE 32 n

/-- `abi.encode` of a pair of `uint` values: two 32-byte words concatenated.
This is the encoding `keccak256(abi.encode(_messageNonce, dispatchedSlot))`
hashes in `dispatchedSlotKey`; the `uint32` nonce is widened to a full
32-byte word. -/
def abiEncode2 (a b : Nat) : List Nat :=
  abiEncodeWord a ++ abiEncodeWord b

/-- External environment of the contract: EVM builtins, the proof-helper
library, and the light-client oracle.

`keccak` and `abiDecodeNestedBytes` model the builtins `keccak256` and
`abi.decode(_, (bytes[][]))`.

`getStorageRoot` and `getStorageBytes` are modelled from the spec: the
`StorageProof` library of `StateProofHelpers.sol` is not in this tree; per
the spec they verify an account proof against a state root yielding the
account's storage root, and a storage proof against a storage root yielding
the raw stored bytes, failing with a proof error otherwise.  Argument
order follows the call sites in `getDispatchedValue`.

`headRoot` is modelled from the spec: the virtual `getHeadStateRoot` reads
the current state root from the light client; it may fail (oracle
uninitialized), which the spec calls fail-closed. -/
structure Env where
  keccak : List Nat → Nat
  abiDecodeNestedBytes : List Nat → Except Unit (List (List (List Nat)))
  getStorageRoot : Nat → List (List Nat) → Nat → Except Unit Nat
  getStorageBytes : Nat → List (List Nat) → Nat → Except Unit (List Nat)
  headRoot : Except Unit Nat

/-- Storage of the `StorageProofIsm` contract: the five declared fields,
plus the `initializer` guard and the `OwnableUpgradeable` owner slot. -/
structure ContractState where
  lightClient : Nat
  mailbox : Nat
  dispatchedHook : Nat
  dispatchedSlot : Nat
  offchainUrls : List (List Nat)
  inited : Bool
  owner : Nat

/-- Modelled from the spec: the `Message` library's `nonce` accessor
(`Message.sol` is not in this tree).  The message's 4-byte sequence-number
field sits at a fixed offset (one version byte precedes it); reading it
from calldata shorter than 5 bytes is an out-of-range calldata slice,
which reverts. -/
def Message.nonce (message : List Nat) : Except Unit Nat :=
  if 5 ≤ message.length then
    Except.ok (bytesToNatBE ((message.drop 1).take 4))
  else
    Except.error ()

/-- Modelled from the spec: the `Message` library's `id` accessor: the
message identifier is the keccak256 hash of the full encoded message.
Total: it cannot revert. -/
def Message.id (env : Env) (message : List Nat) : Nat :=
  env.keccak message

/-- `dispatchedSlotKey` (StorageProofIsm.sol, lines 154-158):
`keccak256(abi.encode(_messageNonce, dispatchedSlot))`.  The parameter is
a `uint32`, hence the `% 2 ^ 32`. -/
def dispatchedSlotKey (env : Env) (s : ContractState) (messageNonce : Nat) : Nat :=
  env.keccak (abiEncode2 (messageNonce % 2 ^ 32) s.dispatchedSlot)

/-- Array indexing `xs[i]` in Solidity: reverts when out of range. -/
def listIndex {α : Type} (xs : List α) (i : Nat) : Except Unit α :=
  match xs.get? i with
  | some x => Except.ok x
  | none => Except.error ()

/-- `getDispatchedValue` (StorageProofIsm.sol, lines 114-136): decode
`_proofs` as `bytes[][]`, take element 0 as the account proof and element 1
as the storage proof (out-of-range indexing reverts), read the oracle's
head state root, verify the account proof for `dispatchedHook` against it
to get the storage root, then verify the storage proof at trie key
`keccak256(abi.encode(_dispatchedSlotKey))` against that storage root.
Each statement's revert propagates to the caller, hence the `bind`s. -/
def getDispatchedValue (env : Env) (s : ContractState) (proofs : List Nat)
    (slotKey : Nat) : Except Unit (List Nat) :=
  (env.abiDecodeNestedBytes proofs).bind fun arr =>
    (listIndex arr 0).bind fun accountProof =>
      (listIndex arr 1).bind fun storageProof =>
        env.headRoot.bind fun stateRoot =>
          (env.getStorageRoot s.dispatchedHook accountProof stateRoot).bind
            fun storageRoot =>
              env.getStorageBytes (env.keccak (abiEncodeWord slotKey))
                storageProof storageRoot

/-- `verify` (StorageProofIsm.sol, lines 92-106).  The argument
`dispatchedSlotKey(_message.nonce())` of the external self-call is
evaluated before the call, outside the `try`/`catch`, so a revert of
`_message.nonce()` propagates to the caller.  A revert inside the external
`getDispatchedValue` call is caught and yields `false`.  On success the
contract returns `keccak256(dispatchedMessageId) != _message.id()` —
note the `!=`. -/
def verify (env : Env) (s : ContractState) (proofs message : List Nat) :
    Except Unit Bool :=
  match Message.nonce message with
  | Except.error e => Except.error e
  | Except.ok n =>
    match getDispatchedValue env s proofs (dispatchedSlotKey env s n) with
    | Except.ok v => Except.ok (env.keccak v != Message.id env message)
    | Except.error _ => Except.ok false

/-- A call to the `view` function `verify` as a state transition: `view`
functions cannot write storage (compiler-enforced), so the poststate is
the prestate. -/
def verifyCall (env : Env) (s : ContractState) (proofs message : List Nat) :
    Except Unit Bool × ContractState :=
  (verify env s proofs message, s)

/-- External calls a contract function can emit. -/
inductive ExtCall
  | mailboxProcess (target : Nat) (proofs message : List Nat)
deriving DecidableEq

/-- `process` (StorageProofIsm.sol, lines 166-168): forwards its two
arguments to `mailbox.process` and does nothing else.  The result is the
list of emitted external calls and the (unchanged) contract state. -/
def process (s : ContractState) (proofs message : List Nat) :
    List ExtCall × ContractState :=
  ([ExtCall.mailboxProcess s.mailbox proofs message], s)

/-- `initialize` (StorageProofIsm.sol, lines 56-69): guarded by
`initializer` (reverts when already initialized), runs `__Ownable_init`
(owner := caller) and assigns the five fields.  There is no check on
`_offchainUrls`. -/
def initContract (s : ContractState) (sender mb hook lc slot : Nat)
    (urls : List (List Nat)) : Except Unit ContractState :=
  if s.inited then Except.error ()
  else
    Except.ok
      { s with
        inited := true
        owner := sender
        mailbox := mb
        dispatchedHook := hook
        lightClient := lc
        dispatchedSlot := slot
        offchainUrls := urls }

/-- `setOffchainUrls` (StorageProofIsm.sol, lines 80-83): `onlyOwner`,
then `require(_urls.length > 0, "!length")`, then assign. -/
def setOffchainUrls (s : ContractState) (sender : Nat)
    (urls : List (List Nat)) : Except Unit ContractState :=
  if sender = s.owner then
    if urls.length > 0 then Except.ok { s with offchainUrls := urls }
    else Except.error ()
  else Except.error ()

/-- A concrete environment for witnesses: a degenerate hash and trivially
succeeding proof verifiers. -/
def env0 : Env where
  keccak := fun _ => 0
  abiDecodeNestedBytes := fun _ => Except.ok [[], []]
  getStorageRoot := fun _ _ _ => Except.ok 0
  getStorageBytes := fun _ _ _ => Except.ok []
  headRoot := Except.ok 0

/-- A concrete contract state for witnesses. -/
def s0 : ContractState where
  lightClient := 11
  mailbox := 12
  dispatchedHook := 13
  dispatchedSlot := 3
  offchainUrls := [[104]]
  inited := true
  owner := 1

/-- A fresh (not yet initialized) contract state. -/
def sFresh : ContractState where
  lightClient := 0
  mailbox := 0
  dispatchedHook := 0
  dispatchedSlot := 0
  offchainUrls := []
  inited := false
  owner := 0

/-- A 5-byte message: version byte 0, nonce bytes 0 0 0 0. -/
def msg0 : List Nat := [0, 0, 0, 0, 0]

/-- A state differing from `s0` exactly in the fields `verify` does not
read (light client, mailbox, URL list, owner). -/
def s0var : ContractState :=
  { s0 with lightClient := 77, mailbox := 78, offchainUrls := [], owner := 99 }

/-- The state produced by initializing `sFresh` from sender 9 with
mailbox 1, hook 2, light client 3, slot 4 and an empty URL list. -/
def sInitEmpty : ContractState where
  lightClient := 3
  mailbox := 1
  dispatchedHook := 2
  dispatchedSlot := 4
  offchainUrls := []
  inited := true
  owner := 9

/-- An environment whose storage-proof verification fails: the external
`getDispatchedValue` call reverts inside the `try`. -/
def envFail : Env :=
  { env0 with getStorageBytes := fun _ _ _ => Except.error () }

theorem natToBytesBE_length (w : Nat) : ∀ n : Nat, (natToBytesBE w n).length = w := by
  induction w with
  | zero => intro n; rfl
  | succ w ih =>
    intro n
    simp [natToBytesBE, ih]

theorem exceptBind_ok_iff {α β : Type} (x : Except Unit α) (f : α → Except Unit β)
    (b : β) : x.bind f = Except.ok b ↔ ∃ a, x = Except.ok a ∧ f a = Except.ok b := by
  cases x <;> simp [Except.bind]

theorem listIndex_ok_iff {α : Type} (xs : List α) (i : Nat) (a : α) :
    listIndex xs i = Except.ok a ↔ xs.get? i = some a := by
  unfold listIndex
  cases xs.get? i <;> simp

theorem getDispatchedValue_ok_iff (env : Env) (s : ContractState) (proofs : List Nat)
    (slotKey : Nat) (v : List Nat) :
    getDispatchedValue env s proofs slotKey = Except.ok v ↔
      ∃ arr accountProof storageProof stateRoot storageRoot,
        env.abiDecodeNestedBytes proofs = Except.ok arr ∧
        arr.get? 0 = some accountProof ∧
        arr.get? 1 = some storageProof ∧
        env.headRoot = Except.ok stateRoot ∧
        env.getStorageRoot s.dispatchedHook accountProof stateRoot = Except.ok storageRoot ∧
        env.getStorageBytes (env.keccak (abiEncodeWord slotKey)) storageProof storageRoot
          = Except.ok v := by
  simp only [getDispatchedValue, exceptBind_ok_iff, listIndex_ok_iff]
  constructor
  · rintro ⟨arr, h1, ap, h2, sp, h3, r, h4, sr, h5, h6⟩
    exact ⟨arr, ap, sp, r, sr, h1, h2, h3, h4, h5, h6⟩
  · rintro ⟨arr, ap, sp, r, sr, h1, h2, h3, h4, h5, h6⟩
    exact ⟨arr, h1, ap, h2, sp, h3, r, h4, sr, h5, h6⟩

/-- C1: the claim says `verify` returns `true` exactly when the keccak hash
of the recovered stored value equals the message identifier.  The code
(StorageProofIsm.sol line 102) returns `keccak256(dispatchedMessageId) !=
_message.id()` — the comparison is inverted.  At a concrete instance where
the proofs verify and the recovered value hashes to the message id (the
dispatched case, in which the contract's own docstring promises `true`),
`verify` returns `false`. -/
theorem verify_false_despite_id_match :
    getDispatchedValue env0 s0 [] (dispatchedSlotKey env0 s0 0) = Except.ok [] ∧
    env0.keccak [] = Message.id env0 msg0 ∧
    Message.nonce msg0 = Except.ok 0 ∧
    verify env0 s0 [] msg0 = Except.ok false :=
  ⟨rfl, rfl, rfl, rfl⟩

/-- C2 (counterexample): the claim says `verify` never reverts, for every
calldata pair.  For the empty message the nonce read — evaluated outside
the `try`/`catch` — reverts, and the revert reaches the caller. -/
theorem verify_reverts_on_empty_message :
    verify env0 s0 [] [] = Except.error () := rfl

/-- C2 (amended): for every `_proofs` and every `_message` long enough to
contain the encoded nonce field, `verify` returns a boolean and never
reverts; moreover, whenever the external `getDispatchedValue` call — made
with the slot key derived from the message's nonce — fails, `verify`
returns exactly `false` (fail-closed, never fail-open). -/
theorem verify_total_on_long_message (env : Env) (s : ContractState)
    (proofs message : List Nat) (h : 5 ≤ message.length) :
    (∃ b : Bool, verify env s proofs message = Except.ok b) ∧
    (getDispatchedValue env s proofs
        (dispatchedSlotKey env s (bytesToNatBE ((message.drop 1).take 4)))
      = Except.error () →
      verify env s proofs message = Except.ok false) := by
  have hn : Message.nonce message
      = Except.ok (bytesToNatBE ((message.drop 1).take 4)) := by
    unfold Message.nonce
    rw [if_pos h]
  cases hg : getDispatchedValue env s proofs
      (dispatchedSlotKey env s (bytesToNatBE ((message.drop 1).take 4))) with
  | error e =>
    refine ⟨⟨false, ?_⟩, fun _ => ?_⟩ <;> simp only [verify, hn, hg]
  | ok v =>
    refine ⟨⟨env.keccak v != Message.id env message, ?_⟩, fun h2 => ?_⟩
    · simp only [verify, hn, hg]
    · exact Except.noConfusion h2

/-- Witness for C2 (amended) at `msg0` and the failing environment
`envFail`, where the `getDispatchedValue` failure really occurs and
`verify` indeed returns `false`. -/
theorem verify_total_on_long_message_witness :
    5 ≤ msg0.length ∧
    ((∃ b : Bool, verify envFail s0 [] msg0 = Except.ok b) ∧
      (getDispatchedValue envFail s0 []
          (dispatchedSlotKey envFail s0 (bytesToNatBE ((msg0.drop 1).take 4)))
        = Except.error () →
        verify envFail s0 [] msg0 = Except.ok false)) :=
  ⟨by decide, verify_total_on_long_message envFail s0 [] msg0 (by decide)⟩

/-- C3: `getDispatchedValue` succeeds with value `v` exactly when `_proofs`
decodes to an array whose element 0 is the account proof and element 1 the
storage proof, the oracle's head state root is read, the account proof for
`dispatchedHook` verifies against it yielding a storage root, and the
storage proof verifies against that storage root yielding `v`.  Quantified
over every environment, so the decomposition pins the order and the data
flow of the pipeline whatever the external verifiers do. -/
theorem getDispatchedValue_pipeline (env : Env) (s : ContractState)
    (proofs : List Nat) (slotKey : Nat) (v : List Nat) :
    getDispatchedValue env s proofs slotKey = Except.ok v ↔
      ∃ arr accountProof storageProof stateRoot storageRoot,
        env.abiDecodeNestedBytes proofs = Except.ok arr ∧
        arr.get? 0 = some accountProof ∧
        arr.get? 1 = some storageProof ∧
        env.headRoot = Except.ok stateRoot ∧
        env.getStorageRoot s.dispatchedHook accountProof stateRoot = Except.ok storageRoot ∧
        env.getStorageBytes (env.keccak (abiEncodeWord slotKey)) storageProof storageRoot
          = Except.ok v :=
  getDispatchedValue_ok_iff env s proofs slotKey v

/-- Witness for C3: the decomposition, applied at a concrete environment. -/
theorem getDispatchedValue_pipeline_witness :
    getDispatchedValue env0 s0 [] 0 = Except.ok [] :=
  (getDispatchedValue_pipeline env0 s0 [] 0 []).mpr
    ⟨[[], []], [], [], 0, 0, rfl, rfl, rfl, rfl, rfl, rfl⟩

/-- C4: `dispatchedSlotKey(n)` is the keccak hash of the ABI encoding of
the pair `(n, dispatchedSlot)`, with the `uint32` nonce widened to a full
32-byte word (each encoded word is 32 bytes).  The function is total and
deterministic by construction (it is a function into `Nat`). -/
theorem dispatchedSlotKey_abi_encoding (env : Env) (s : ContractState) (n : Nat)
    (h : n < 2 ^ 32) :
    dispatchedSlotKey env s n
        = env.keccak (abiEncodeWord n ++ abiEncodeWord s.dispatchedSlot) ∧
    (abiEncodeWord n).length = 32 ∧
    (abiEncodeWord s.dispatchedSlot).length = 32 := by
  refine ⟨?_, natToBytesBE_length 32 n, natToBytesBE_length 32 s.dispatchedSlot⟩
  unfold dispatchedSlotKey abiEncode2
  rw [Nat.mod_eq_of_lt h]

/-- Witness for C4 at nonce 7. -/
theorem dispatchedSlotKey_abi_encoding_witness :
    (7 : Nat) < 2 ^ 32 ∧
    (dispatchedSlotKey env0 s0 7
        = env0.keccak (abiEncodeWord 7 ++ abiEncodeWord s0.dispatchedSlot) ∧
      (abiEncodeWord 7).length = 32 ∧
      (abiEncodeWord s0.dispatchedSlot).length = 32) :=
  ⟨by decide, dispatchedSlotKey_abi_encoding env0 s0 7 (by decide)⟩

/-- C5 (counterexample): the claim says both `setOffchainUrls` and
`initialize` reject an empty URL list.  `initialize` has no such check: on
a fresh state it succeeds with an empty list and leaves `offchainUrls`
empty. -/
theorem initContract_accepts_empty_urls :
    initContract sFresh 9 1 2 3 4 [] = Except.ok sInitEmpty ∧
    sInitEmpty.offchainUrls = [] :=
  ⟨rfl, rfl⟩

/-- C5 (amended): only `setOffchainUrls` rejects the empty list — whenever
it succeeds the stored URL list is the given non-empty one.  `initialize`
performs no emptiness check, so `offchainUrls` may be empty after a
successful `initialize`. -/
theorem setOffchainUrls_guarantees_nonempty (s : ContractState) (sender : Nat)
    (urls : List (List Nat)) (s2 : ContractState)
    (h : setOffchainUrls s sender urls = Except.ok s2) :
    urls ≠ [] ∧ s2.offchainUrls = urls := by
  unfold setOffchainUrls at h
  by_cases ho : sender = s.owner
  · rw [if_pos ho] at h
    by_cases hl : urls.length > 0
    · rw [if_pos hl] at h
      cases h
      exact ⟨List.length_pos.mp hl, rfl⟩
    · rw [if_neg hl] at h
      exact absurd h (by simp)
  · rw [if_neg ho] at h
    exact absurd h (by simp)

/-- Witness for C5 (amended): the owner sets a one-element list. -/
theorem setOffchainUrls_guarantees_nonempty_witness :
    ([[104]] : List (List Nat)) ≠ [] ∧
    ({ s0 with offchainUrls := [[104]] } : ContractState).offchainUrls = [[104]] :=
  setOffchainUrls_guarantees_nonempty s0 1 [[104]]
    { s0 with offchainUrls := [[104]] } rfl

/-- C6: `verify` is deterministic — with byte-identical calldata, the same
`dispatchedHook` and `dispatchedSlot` configuration, the same external
environment and an unchanged oracle head state root, two calls return the
identical result.  The state may differ in every other field. -/
theorem verify_deterministic (env : Env) (s1 s2 : ContractState)
    (proofs1 proofs2 message1 message2 : List Nat)
    (hHook : s1.dispatchedHook = s2.dispatchedHook)
    (hSlot : s1.dispatchedSlot = s2.dispatchedSlot)
    (hp : proofs1 = proofs2) (hm : message1 = message2) :
    verify env s1 proofs1 message1 = verify env s2 proofs2 message2 := by
  subst hp
  subst hm
  unfold verify getDispatchedValue dispatchedSlotKey
  rw [hHook, hSlot]

/-- Witness for C6: two states agreeing only on the read fields. -/
theorem verify_deterministic_witness :
    verify env0 s0 [] msg0 = verify env0 s0var [] msg0 :=
  verify_deterministic env0 s0 s0var [] [] msg0 msg0 rfl rfl rfl rfl

/-- C7: `verify` is a `view` function: a call leaves every contract field —
`lightClient`, `mailbox`, `dispatchedHook`, `dispatchedSlot`,
`offchainUrls` — as it was, whatever it returns. -/
theorem verifyCall_preserves_state (env : Env) (s : ContractState)
    (proofs message : List Nat) :
    (verifyCall env s proofs message).2.lightClient = s.lightClient ∧
    (verifyCall env s proofs message).2.mailbox = s.mailbox ∧
    (verifyCall env s proofs message).2.dispatchedHook = s.dispatchedHook ∧
    (verifyCall env s proofs message).2.dispatchedSlot = s.dispatchedSlot ∧
    (verifyCall env s proofs message).2.offchainUrls = s.offchainUrls :=
  ⟨rfl, rfl, rfl, rfl, rfl⟩

/-- C8: `process` emits exactly one external call — `mailbox.process` with
its own two arguments, unmodified — and changes no contract state. -/
theorem process_forwards_exactly (s : ContractState) (proofs message : List Nat) :
    process s proofs message
      = ([ExtCall.mailboxProcess s.mailbox proofs message], s) := rfl

/-- C9: on the `verify` path the storage-layer trie key is not the slot key
itself but `keccak256(abi.encode(slotKey))`: for the slot key of nonce `n`
the storage proof is evaluated at
`keccak(abiEncodeWord (keccak (abiEncodeWord n ++ abiEncodeWord slot)))` —
the full nonce-to-trie-key path is a double hash.  Quantified over every
environment, so the key passed to the storage-proof walker is pinned. -/
theorem storage_trie_key_is_double_hash (env : Env) (s : ContractState)
    (proofs : List Nat) (n : Nat) (v : List Nat) :
    getDispatchedValue env s proofs (dispatchedSlotKey env s n) = Except.ok v ↔
      ∃ arr accountProof storageProof stateRoot storageRoot,
        env.abiDecodeNestedBytes proofs = Except.ok arr ∧
        arr.get? 0 = some accountProof ∧
        arr.get? 1 = some storageProof ∧
        env.headRoot = Except.ok stateRoot ∧
        env.getStorageRoot s.dispatchedHook accountProof stateRoot = Except.ok storageRoot ∧
        env.getStorageBytes
          (env.keccak (abiEncodeWord
            (env.keccak (abiEncodeWord (n % 2 ^ 32) ++ abiEncodeWord s.dispatchedSlot))))
          storageProof storageRoot = Except.ok v :=
  getDispatchedValue_ok_iff env s proofs (dispatchedSlotKey env s n) v

/-- Witness for C9 at nonce 5. -/
theorem storage_trie_key_is_double_hash_witness :
    getDispatchedValue env0 s0 [] (dispatchedSlotKey env0 s0 5) = Except.ok [] :=
  (storage_trie_key_is_double_hash env0 s0 [] 5 []).mpr
    ⟨[[], []], [], [], 0, 0, rfl, rfl, rfl, rfl, rfl, rfl⟩

/-- C10: the nonce read and the slot-key derivation are argument
evaluations of the external self-call, outside the `try`/`catch`: for any
message shorter than 5 bytes (too short for the encoded nonce field) the
nonce read reverts and `verify` reverts instead of returning `false`. -/
theorem verify_reverts_short_message (env : Env) (s : ContractState)
    (proofs message : List Nat) (h : message.length < 5) :
    verify env s proofs message = Except.error () := by
  have hn : Message.nonce message = Except.error () := by
    unfold Message.nonce
    rw [if_neg (by omega)]
  simp only [verify, hn]

/-- Witness for C10 at a one-byte message. -/
theorem verify_reverts_short_message_witness :
    ([1] : List Nat).length < 5 ∧ verify env0 s0 [] [1] = Except.error () :=
  ⟨by decide, verify_reverts_short_message env0 s0 [] [1] (by decide)⟩
